import Mathlib

/-!
Shallow embedding of the hot-reload coordination subsystem of the
`api-deploy` repository (`registry.py`, `module_loader.py`, `decorators.py`),
together with theorems settling the frozen claims about it.

Modelling conventions:
* Python dicts are embedded as association lists with first-match lookup
  (`dget`), in-place update (`dset`, replace-or-append, preserving insertion
  order like a Python dict) and key deletion (`ddel`).
* Python object identity of the inner per-module dicts matters for the
  snapshot claims (`dict.copy()` is shallow), so the registry is embedded
  with one level of indirection: the outer dict maps a module name to a
  heap address, and a heap maps addresses to the inner per-module dicts.
  A fresh inner dict gets a fresh address; a shallow copy of the outer
  dict copies the name-to-address mapping but shares the heap.
* Callables are opaque and represented by a numeric identifier.
* Wall-clock time is modelled by `Nat` ticks of 0.1 s; the 1.0 second
  `min_reload_interval` is `10` ticks.
-/

namespace ApiDeploy

/-- First-match lookup in an association list (Python `d.get(k)`). -/
def dget {κ α : Type} [DecidableEq κ] : List (κ × α) → κ → Option α
  | [], _ => none
  | (k', v) :: t, k => if k' = k then some v else dget t k

/-- In-place update of an association list (Python `d[k] = v`): replaces the
first binding of `k` if present, otherwise appends a new binding, matching a
Python dict's insertion-order semantics. -/
def dset {κ α : Type} [DecidableEq κ] : List (κ × α) → κ → α → List (κ × α)
  | [], k, v => [(k, v)]
  | (k', v') :: t, k, v => if k' = k then (k', v) :: t else (k', v') :: dset t k v

/-- Key deletion from an association list (Python `del d[k]`). -/
def ddel {κ α : Type} [DecidableEq κ] (l : List (κ × α)) (k : κ) : List (κ × α) :=
  l.filter (fun p => p.1 ≠ k)

/-- Model of Python `str.upper()` on a single character, restricted to the
ASCII range (the only characters appearing in HTTP method names). -/
def charToUpper (c : Char) : Char :=
  if 97 ≤ c.toNat ∧ c.toNat ≤ 122 then Char.ofNat (c.toNat - 32) else c

/-- Model of Python `str.upper()` (ASCII range). -/
def strToUpper (s : String) : String := ⟨s.data.map charToUpper⟩

/-- Supported-methods dict of a registered function: Python
`{"GET": bool, "POST": bool}` (`registry.py`, value stored under `"methods"`). -/
abbrev Methods := List (String × Bool)

/-- Entry stored by `APIRegistry.register_function` for one function:
`{"func": callable, "methods": supported_methods}` (`registry.py` lines 42-45).
The callable is opaque and represented by a numeric identifier. -/
structure FuncInfo where
  func : Nat
  methods : Methods
deriving DecidableEq

/-- The registry state of `APIRegistry` (`registry.py`).  Python's
`registered_functions : Dict[str, Dict[str, ...]]` maps a module name
directly to an inner dict object; because `get_all_functions_with_methods`
hands out a SHALLOW copy of the outer dict, the identity of the inner dict
objects is observable.  The embedding therefore keeps the outer dict as a
map from module name to a heap address, and the heap maps addresses to the
inner per-module dicts; `nextAddr` is the allocator for fresh inner dicts. -/
structure Registry where
  outer : List (String × Nat)
  heap : List (Nat × List (String × FuncInfo))
  nextAddr : Nat
deriving DecidableEq

/-- The freshly constructed singleton: `self.registered_functions = {}`. -/
def emptyRegistry : Registry := ⟨[], [], 0⟩

/-- Default flags used by `register_function` when `supported_methods is None`:
`{'GET': False, 'POST': True}` (`registry.py` lines 39-40). -/
def defaultMethods : Methods := [("GET", false), ("POST", true)]

/-- `APIRegistry.register_function` (`registry.py` lines 33-53): ensures the
module's inner dict exists (allocating a fresh one if the module name is not
a key of the outer dict), resolves the `None` default for
`supported_methods`, then assigns the `{"func": ..., "methods": ...}` entry
into the module's inner dict in place.  Logging has no registry effect and
is omitted. -/
def register_function (r : Registry) (module_name function_name : String)
    (func : Nat) (supported_methods : Option Methods) : Registry :=
  let ensured : Registry :=
    if (dget r.outer module_name).isSome then r
    else { outer := dset r.outer module_name r.nextAddr,
           heap := dset r.heap r.nextAddr [],
           nextAddr := r.nextAddr + 1 }
  let methods := supported_methods.getD defaultMethods
  let addr := (dget ensured.outer module_name).getD 0
  let inner := (dget ensured.heap addr).getD []
  { ensured with
    heap := dset ensured.heap addr
      (dset inner function_name ⟨func, methods⟩) }

/-- Reading a (module, function) entry through an arbitrary alias of the
outer dict: Python `snap.get(module_name, {}).get(function_name)`, with the
inner dict resolved through the shared heap. -/
def snapshotGet (snap : List (String × Nat))
    (heap : List (Nat × List (String × FuncInfo))) (module_name function_name : String) :
    Option FuncInfo :=
  match dget snap module_name with
  | none => none
  | some addr =>
    match dget heap addr with
    | none => none
    | some inner => dget inner function_name

/-- `self.registered_functions.get(module_name, {}).get(function_name)`,
the common lookup of `get_function` and `get_function_methods`. -/
def lookupInfo (r : Registry) (module_name function_name : String) : Option FuncInfo :=
  snapshotGet r.outer r.heap module_name function_name

/-- `APIRegistry.get_function` (`registry.py` lines 55-58):
`func_info["func"] if func_info else None`. -/
def get_function (r : Registry) (module_name function_name : String) : Option Nat :=
  match lookupInfo r module_name function_name with
  | some fi => some fi.func
  | none => none

/-- `APIRegistry.get_function_methods` (`registry.py` lines 60-63):
`func_info["methods"] if func_info else None`. -/
def get_function_methods (r : Registry) (module_name function_name : String) :
    Option Methods :=
  match lookupInfo r module_name function_name with
  | some fi => some fi.methods
  | none => none

/-- `APIRegistry.supports_method` (`registry.py` lines 65-68):
`methods.get(method.upper(), False) if methods else False`. -/
def supports_method (r : Registry) (module_name function_name method : String) : Bool :=
  match get_function_methods r module_name function_name with
  | some methods => (dget methods (strToUpper method)).getD false
  | none => false

/-- `APIRegistry.get_all_functions_with_methods` (`registry.py` lines 79-81):
`return self.registered_functions.copy()` — a SHALLOW copy: the outer
name-to-inner-dict mapping is copied (here: the address list is taken by
value) but the inner per-module dicts (heap cells) are shared. -/
def get_all_functions_with_methods (r : Registry) : List (String × Nat) :=
  r.outer

/-- `APIRegistry.clear_module_functions` (`registry.py` lines 83-99):
`del self.registered_functions[module_name]` when the key exists (dropping
only the outer binding; the inner dict object survives through aliases),
otherwise only a `CLEAR_FAILED` log event.  Either way the outer dict ends
up without the key, which `ddel` captures directly. -/
def clear_module_functions (r : Registry) (module_name : String) : Registry :=
  { r with outer := ddel r.outer module_name }

/-- `api_function` decorator (`decorators.py` lines 6-58): validates that at
least one of `GET`/`POST` is enabled (else `ValueError`), then registers the
wrapped callable with `supported_methods={'GET': GET, 'POST': POST}`.  The
decorator's defaults are `GET=False, POST=True`. -/
def api_function (r : Registry) (module_name function_name : String) (func : Nat)
    (GET POST : Bool) : Except String Registry :=
  if !GET && !POST then
    Except.error "at least one of GET and POST must be supported"
  else
    Except.ok (register_function r module_name function_name func
      (some [("GET", GET), ("POST", POST)]))

/-- Registries reachable from `emptyRegistry` keep distinct modules at
distinct heap addresses, all below the allocator counter.  (Stated
structurally on the outer list so that it is decidable on concrete
registries.) -/
def WF (r : Registry) : Prop :=
  r.outer.Pairwise (fun p q => p.1 ≠ q.1 ∧ p.2 ≠ q.2) ∧
  ∀ p ∈ r.outer, p.2 < r.nextAddr

instance (r : Registry) : Decidable (WF r) := by
  unfold WF
  infer_instance

/-- One registration a module's source performs when it is evaluated: an
`@api_function`-marked function (name, opaque callable, declared flags, or
`none` when `register_function` would be reached with its default). -/
structure RegEntry where
  function_name : String
  func : Nat
  supported_methods : Option Methods
deriving DecidableEq

/-- What evaluating a module's source does to the registry: the module body
executes its `@api_function` decorators in order, each registering into the
global registry immediately; evaluation then either finishes normally
(`raises = false`) or raises an exception (`raises = true`), after which no
further decorators run.  `entries` are exactly the registrations performed
before the exception — empty when the source fails before the first
decorator (e.g. a parse error). -/
structure ModuleSource where
  entries : List RegEntry
  raises : Bool
deriving DecidableEq

/-- `ModuleLoader._load_module_sync` (`module_loader.py` lines 188-204): it
re-imports (or first imports) the module; the import executes the module
body's decorators one at a time, so every registration performed before a
mid-evaluation exception persists; the exception itself is caught and
logged.  The registry effect is therefore the fold of the registrations
that actually ran, whether or not the source then raises. -/
def load_module_sync (r : Registry) (module_name : String) (src : ModuleSource) :
    Registry :=
  src.entries.foldl
    (fun acc e => register_function acc module_name e.function_name e.func e.supported_methods)
    r

/-- `ModuleLoader._reload_module_sync` (`module_loader.py` lines 246-258):
clears the module's old registrations, then re-imports the module; the
surrounding `try` catches every exception, so the function always returns. -/
def reload_module_sync (r : Registry) (module_name : String) (src : ModuleSource) :
    Registry :=
  load_module_sync (clear_module_functions r module_name) module_name src

/-- `self.min_reload_interval = 1.0` seconds (`module_loader.py` line 117),
in ticks of 0.1 s. -/
def min_reload_interval : Nat := 10

/-- The reload coordinator's state (`ModuleLoader.__init__`,
`module_loader.py` lines 110-118): the pending FIFO `reload_queue`, the
in-flight `processing_modules` set, the `last_reload_time` map and the
shared registry; `now` is the model clock, `sources` the current on-disk
source of every module (re-read at reload time), and `reloadsExecuted` the
trace of reload dispatches actually run on the worker pool. -/
structure LoaderState where
  queue : List String
  processing_modules : List String
  last_reload_time : List (String × Nat)
  now : Nat
  registry : Registry
  sources : String → ModuleSource
  reloadsExecuted : List String

/-- `ModuleLoader.schedule_reload` (`module_loader.py` lines 260-266):
enqueues the module name unless it is currently in the processing set, in
which case the call is dropped. -/
def schedule_reload (s : LoaderState) (module_name : String) : LoaderState :=
  if module_name ∈ s.processing_modules then s
  else { s with queue := s.queue ++ [module_name] }

/-- The debounce wait of `_process_reload_queue` (`module_loader.py` lines
142-147): if less than `min_reload_interval` has elapsed since the module's
last recorded reload, the consumer sleeps a full `min_reload_interval`
before proceeding. -/
def debounced_time (s : LoaderState) (module_name : String) : Nat :=
  if s.now - (dget s.last_reload_time module_name).getD 0 < min_reload_interval then
    s.now + min_reload_interval
  else s.now

/-- One iteration of the consumer loop `_process_reload_queue`
(`module_loader.py` lines 135-171) under the cooperative scheduler: dequeue
a name, wait out the debounce, and unless the name is already in the
processing set, add it, run `_reload_module_sync` on the worker pool (which
takes `dur` ticks and re-reads the module's current source), record the
completion time in `last_reload_time`, and in the `finally` remove the name
from the processing set again.  While the worker-pool call is awaited the
event loop runs other tasks; `arrivals` are the `schedule_reload` calls
delivered during that await, each of which sees the name inside the
processing set. -/
def processOne (dur : Nat) (arrivals : List String) (s : LoaderState) : LoaderState :=
  match s.queue with
  | [] => s
  | module_name :: rest =>
    let t1 := debounced_time s module_name
    if module_name ∈ s.processing_modules then
      { s with queue := rest, now := t1 }
    else
      let inflight : LoaderState :=
        { s with queue := rest,
                 processing_modules := module_name :: s.processing_modules,
                 now := t1 }
      let during := arrivals.foldl schedule_reload inflight
      { during with
        processing_modules := s.processing_modules,
        last_reload_time := dset during.last_reload_time module_name (t1 + dur),
        now := t1 + dur,
        registry := reload_module_sync during.registry module_name (during.sources module_name),
        reloadsExecuted := during.reloadsExecuted ++ [module_name] }

/-- Runs `fuel` iterations of the consumer loop with no interleaved
schedule calls. -/
def drainAll (dur : Nat) : Nat → LoaderState → LoaderState
  | 0, s => s
  | fuel + 1, s => drainAll dur fuel (processOne dur [] s)

/-- Outcome of a notification callback's attempt to hand work to the
cooperative scheduler from the watchdog thread. -/
inductive TaskOutcome
  | dispatched
  | warnedDropped
  | errorLogged
  | raised
deriving DecidableEq

/-- `APIModuleHandler._schedule_async_task` (`module_loader.py` lines 35-49):
if a loop reference is set and the loop is not closed, submit via
`asyncio.run_coroutine_threadsafe` inside a `try` whose `except` logs an
error; otherwise log a warning and drop the work.  No path re-raises into
the calling thread. -/
def schedule_async_task (loopSet loopClosed submitRaises : Bool) : TaskOutcome :=
  if loopSet && !loopClosed then
    if submitRaises then TaskOutcome.errorLogged else TaskOutcome.dispatched
  else TaskOutcome.warnedDropped

/-- Model of `asyncio.create_task` called on a foreign thread: it requires a
running event loop in the calling thread and raises `RuntimeError` into the
caller otherwise. -/
def asyncio_create_task (runningLoopInCallingThread : Bool) : TaskOutcome :=
  if runningLoopInCallingThread then TaskOutcome.dispatched else TaskOutcome.raised

/-- The fields of a watchdog filesystem event that the handlers inspect:
`event.is_directory`, `event.src_path.endswith('.py')`,
`Path(event.src_path).name`, `.parent.name` and `.stem`. -/
structure FileEvent where
  is_directory : Bool
  src_path_ends_py : Bool
  name : String
  parent_name : String
  stem : String

/-- `Config.API_MODULES_DIR` (`config.py`). -/
def API_MODULES_DIR : String := "apis"

/-- Result of one notification callback invocation. -/
inductive CallbackResult
  | ignored
  | handled (o : TaskOutcome)
deriving DecidableEq

/-- `APIModuleHandler.on_modified` (`module_loader.py` lines 51-75): ignores
directories and non-`.py` paths; routes `config.py` changes and API-module
changes through `_schedule_async_task`. -/
def on_modified (loopSet loopClosed submitRaises : Bool) (e : FileEvent) :
    CallbackResult :=
  if e.is_directory then CallbackResult.ignored
  else if e.src_path_ends_py then
    if e.name = "config.py" then
      CallbackResult.handled (schedule_async_task loopSet loopClosed submitRaises)
    else if e.parent_name = API_MODULES_DIR then
      CallbackResult.handled (schedule_async_task loopSet loopClosed submitRaises)
    else CallbackResult.ignored
  else CallbackResult.ignored

/-- `APIModuleHandler.on_deleted` (`module_loader.py` lines 77-90): ignores
directories and non-`.py` paths; routes API-module deletions through
`_schedule_async_task`. -/
def on_deleted (loopSet loopClosed submitRaises : Bool) (e : FileEvent) :
    CallbackResult :=
  if e.is_directory then CallbackResult.ignored
  else if e.src_path_ends_py then
    if e.parent_name = API_MODULES_DIR then
      CallbackResult.handled (schedule_async_task loopSet loopClosed submitRaises)
    else CallbackResult.ignored
  else CallbackResult.ignored

/-- `APIModuleHandler.on_created` (`module_loader.py` lines 92-105): ignores
directories and non-`.py` paths, but — unlike the other two callbacks —
calls `asyncio.create_task(...)` directly instead of going through
`_schedule_async_task`. -/
def on_created (runningLoopInCallingThread : Bool) (e : FileEvent) : CallbackResult :=
  if e.is_directory then CallbackResult.ignored
  else if e.src_path_ends_py then
    if e.parent_name = API_MODULES_DIR then
      CallbackResult.handled (asyncio_create_task runningLoopInCallingThread)
    else CallbackResult.ignored
  else CallbackResult.ignored

/-- Whether a callback invocation raised an exception into the notification
thread. -/
def raisesInto (res : CallbackResult) : Bool :=
  match res with
  | CallbackResult.handled TaskOutcome.raised => true
  | _ => false

/-- Initial coordinator state: empty queue, empty processing set, no
recorded reloads, empty registry, every module's source currently raising
before its first registration. -/
def s0 : LoaderState :=
  { queue := [], processing_modules := [], last_reload_time := [], now := 0,
    registry := emptyRegistry, sources := fun _ => ⟨[], true⟩, reloadsExecuted := [] }

/-- Two change events for module `"m"` delivered at the same instant
(time 0, a window of width 0 < `min_reload_interval`), both scheduled
before the consumer loop dequeues anything. -/
def sBurst : LoaderState := schedule_reload (schedule_reload s0 "m") "m"

/-- One queued reload of module `"m"` whose source currently fails to be
imported. -/
def sFail : LoaderState := { s0 with queue := ["m"] }

/-- A registry in which module `"u"` has registered handler `"h1"`. -/
def r3a : Registry := register_function emptyRegistry "u" "h1" 1 none

/-- The snapshot `get_all_functions_with_methods` returns on `r3a`. -/
def snap3 : List (String × Nat) := get_all_functions_with_methods r3a

/-- The registry after a further `register_function` for the same module
`"u"`, performed after the snapshot `snap3` was taken. -/
def r3b : Registry := register_function r3a "u" "h2" 2 none

/-- A registry in which module `"b"` has registered handler `"g"`. -/
def rB : Registry := register_function emptyRegistry "b" "g" 7 none

theorem dget_dset_self {κ α : Type} [DecidableEq κ] (l : List (κ × α)) (k : κ) (v : α) :
    dget (dset l k v) k = some v := by
  induction l with
  | nil => simp [dget, dset]
  | cons p t ih =>
    by_cases h : p.1 = k
    · simp [dget, dset, h]
    · simp [dget, dset, h, ih]

theorem dget_dset_ne {κ α : Type} [DecidableEq κ] (l : List (κ × α)) (k k' : κ) (v : α)
    (h : k' ≠ k) : dget (dset l k v) k' = dget l k' := by
  induction l with
  | nil => simp [dget, dset, Ne.symm h]
  | cons p t ih =>
    by_cases hp : p.1 = k
    · simp [dget, dset, hp, Ne.symm h]
    · simp [dget, dset, hp, ih]

theorem dget_ddel_self {κ α : Type} [DecidableEq κ] (l : List (κ × α)) (k : κ) :
    dget (ddel l k) k = none := by
  induction l with
  | nil => simp [dget, ddel]
  | cons p t ih =>
    by_cases h : p.1 = k
    · simpa [ddel, h] using ih
    · simpa [ddel, dget, h] using ih

theorem dget_ddel_ne {κ α : Type} [DecidableEq κ] (l : List (κ × α)) (k k' : κ)
    (h : k' ≠ k) : dget (ddel l k) k' = dget l k' := by
  induction l with
  | nil => simp [ddel]
  | cons p t ih =>
    by_cases hp : p.1 = k
    · simpa [ddel, dget, List.filter_cons, hp, Ne.symm h] using ih
    · by_cases hp' : p.1 = k'
      · simp [ddel, dget, List.filter_cons, hp, hp', h]
      · simpa [ddel, dget, List.filter_cons, hp, hp'] using ih

theorem dget_mem {κ α : Type} [DecidableEq κ] {l : List (κ × α)} {k : κ} {v : α}
    (h : dget l k = some v) : (k, v) ∈ l := by
  induction l with
  | nil => simp [dget] at h
  | cons p t ih =>
    cases p with
    | mk a b =>
      by_cases hp : a = k
      · simp [dget, hp] at h
        subst hp
        subst h
        exact List.mem_cons_self _ _
      · simp [dget, hp] at h
        exact List.mem_cons_of_mem _ (ih h)

theorem dget_none_forall {κ α : Type} [DecidableEq κ] {l : List (κ × α)} {k : κ}
    (h : dget l k = none) : ∀ p ∈ l, p.1 ≠ k := by
  induction l with
  | nil => simp
  | cons p t ih =>
    by_cases hp : p.1 = k
    · simp [dget, hp] at h
    · simp [dget, hp] at h
      intro q hq
      rcases List.mem_cons.mp hq with hq | hq
      · subst hq; exact hp
      · exact ih h q hq

theorem dset_of_dget_none {κ α : Type} [DecidableEq κ] {l : List (κ × α)} {k : κ}
    (h : dget l k = none) (v : α) : dset l k v = l ++ [(k, v)] := by
  induction l with
  | nil => simp [dset]
  | cons p t ih =>
    by_cases hp : p.1 = k
    · simp [dget, hp] at h
    · simp [dget, hp] at h
      simp [dset, hp, ih h]

theorem toNat_ofNat_valid (n : Nat) (h1 : 65 ≤ n) (h2 : n ≤ 90) :
    (Char.ofNat n).toNat = n := by
  have hv : n.isValidChar := Or.inl (by omega)
  unfold Char.ofNat
  rw [dif_pos hv]
  rfl

theorem charToUpper_idem (c : Char) : charToUpper (charToUpper c) = charToUpper c := by
  unfold charToUpper
  by_cases h : 97 ≤ c.toNat ∧ c.toNat ≤ 122
  · rw [if_pos h, if_neg]
    rw [toNat_ofNat_valid (c.toNat - 32) (by omega) (by omega)]
    omega
  · rw [if_neg h, if_neg h]

theorem strToUpper_idem (s : String) : strToUpper (strToUpper s) = strToUpper s := by
  unfold strToUpper
  simp only [List.map_map]
  congr 1
  apply List.map_congr_left
  intro c _
  exact charToUpper_idem c

theorem WF_addr_lt {r : Registry} (hwf : WF r) {m : String} {a : Nat}
    (h : dget r.outer m = some a) : a < r.nextAddr :=
  hwf.2 (m, a) (dget_mem h)

theorem WF_addr_inj {r : Registry} (hwf : WF r) {m m' : String} {a a' : Nat}
    (h : dget r.outer m = some a) (h' : dget r.outer m' = some a')
    (hne : m ≠ m') : a ≠ a' := by
  have hmem := dget_mem h
  have hmem' := dget_mem h'
  have hpair : (m, a) ≠ (m', a') := by
    intro hcontra
    exact hne (congrArg Prod.fst hcontra)
  have hsymm : Symmetric (fun p q : String × Nat => p.1 ≠ q.1 ∧ p.2 ≠ q.2) := by
    intro p q hpq
    exact ⟨hpq.1.symm, hpq.2.symm⟩
  exact (List.Pairwise.forall hsymm hwf.1 hmem hmem' hpair).2

theorem WF_empty : WF emptyRegistry := by
  constructor
  · exact List.Pairwise.nil
  · intro p hp
    simp [emptyRegistry] at hp

theorem WF_register (r : Registry) (hwf : WF r) (m f : String) (fn : Nat)
    (ms : Option Methods) : WF (register_function r m f fn ms) := by
  unfold register_function
  by_cases hm : (dget r.outer m).isSome
  · simpa [hm] using hwf
  · simp only [hm, if_false, Bool.false_eq_true]
    have hnone : dget r.outer m = none := by
      cases h : dget r.outer m
      · rfl
      · simp [h] at hm
    constructor
    · dsimp only
      rw [dset_of_dget_none hnone]
      rw [List.pairwise_append]
      refine ⟨hwf.1, List.pairwise_singleton _ _, ?_⟩
      intro p hp q hq
      simp at hq
      subst hq
      exact ⟨dget_none_forall hnone p hp, Nat.ne_of_lt (hwf.2 p hp)⟩
    · intro p hp
      dsimp only at hp
      rw [dset_of_dget_none hnone] at hp
      rcases List.mem_append.mp hp with hp | hp
      · exact Nat.lt_succ_of_lt (hwf.2 p hp)
      · simp at hp
        subst hp
        exact Nat.lt_succ_self _

/-- Looking up the pair just registered returns exactly the stored entry. -/
theorem lookupInfo_register_self (r : Registry) (m f : String) (fn : Nat)
    (ms : Option Methods) :
    lookupInfo (register_function r m f fn ms) m f =
      some ⟨fn, ms.getD defaultMethods⟩ := by
  unfold lookupInfo snapshotGet register_function
  by_cases hm : (dget r.outer m).isSome
  · obtain ⟨a, ha⟩ := Option.isSome_iff_exists.mp hm
    simp only [hm, if_true]
    simp [ha, dget_dset_self]
  · simp only [hm, if_false, Bool.false_eq_true]
    simp [dget_dset_self]

/-- Unfolding of `register_function` when the module already has an inner dict. -/
theorem register_eq_of_some {r : Registry} {m : String} {a : Nat}
    (ha : dget r.outer m = some a) (f : String) (fn : Nat) (ms : Option Methods) :
    register_function r m f fn ms =
      { r with heap := (dset r.heap a (dset ((dget r.heap a).getD []) f ⟨fn, ms.getD defaultMethods⟩)) } := by
  unfold register_function
  simp [ha]

/-- Unfolding of `register_function` when the module's key is absent: a fresh
inner dict is allocated at `nextAddr`. -/
theorem register_eq_of_none {r : Registry} {m : String}
    (ha : dget r.outer m = none) (f : String) (fn : Nat) (ms : Option Methods) :
    register_function r m f fn ms =
      { outer := dset r.outer m r.nextAddr,
        heap := (dset (dset r.heap r.nextAddr []) r.nextAddr [(f, ⟨fn, ms.getD defaultMethods⟩)]),
        nextAddr := r.nextAddr + 1 } := by
  unfold register_function
  simp [ha, dget_dset_self, dset]

/-- Registering one (module, function) pair does not disturb the entry of
any other pair: the frame property of `register_function`.  Requires the
address discipline `WF` because distinct modules must live at distinct heap
addresses for the in-place inner-dict write to be local. -/
theorem lookupInfo_register_frame (r : Registry) (hwf : WF r)
    (m2 f2 : String) (fn2 : Nat) (ms2 : Option Methods) (m f : String)
    (hne : ¬(m2 = m ∧ f2 = f)) :
    lookupInfo (register_function r m2 f2 fn2 ms2) m f = lookupInfo r m f := by
  cases hm2 : dget r.outer m2 with
  | some a2 =>
    rw [register_eq_of_some hm2]
    unfold lookupInfo snapshotGet
    dsimp only
    by_cases hmm : m = m2
    · subst hmm
      have hf : f2 ≠ f := fun hf2 => hne ⟨rfl, hf2⟩
      simp only [hm2, dget_dset_self]
      rw [dget_dset_ne _ _ _ _ (Ne.symm hf)]
      cases hi : dget r.heap a2
      · simp [dget]
      · simp
    · cases ho : dget r.outer m with
      | none => simp [ho]
      | some a =>
        have haa : a ≠ a2 := WF_addr_inj hwf ho hm2 hmm
        simp only [ho, dget_dset_ne _ _ _ _ haa]
  | none =>
    rw [register_eq_of_none hm2]
    unfold lookupInfo snapshotGet
    dsimp only
    by_cases hmm : m = m2
    · subst hmm
      have hf : f2 ≠ f := fun hf2 => hne ⟨rfl, hf2⟩
      simp only [hm2, dget_dset_self]
      simp [dget, hf]
    · cases ho : dget r.outer m with
      | none => simp only [dget_dset_ne _ _ _ _ hmm, ho]
      | some a =>
        have hanext : a ≠ r.nextAddr := Nat.ne_of_lt (WF_addr_lt hwf ho)
        simp only [dget_dset_ne _ _ _ _ hmm, ho,
          dget_dset_ne _ _ _ _ hanext]

/-- Clearing a module removes its own entries. -/
theorem lookupInfo_clear_self (r : Registry) (m f : String) :
    lookupInfo (clear_module_functions r m) m f = none := by
  unfold lookupInfo snapshotGet clear_module_functions
  simp [dget_ddel_self]

/-- Clearing one module does not disturb any other module's entries. -/
theorem lookupInfo_clear_other (r : Registry) (m m' f : String) (h : m' ≠ m) :
    lookupInfo (clear_module_functions r m) m' f = lookupInfo r m' f := by
  unfold lookupInfo snapshotGet clear_module_functions
  rw [dget_ddel_ne _ _ _ h]

theorem schedule_reload_processing (s : LoaderState) (m : String) :
    (schedule_reload s m).processing_modules = s.processing_modules := by
  unfold schedule_reload
  split <;> rfl

theorem schedule_reload_last (s : LoaderState) (m : String) :
    (schedule_reload s m).last_reload_time = s.last_reload_time := by
  unfold schedule_reload
  split <;> rfl

theorem schedule_reload_now (s : LoaderState) (m : String) :
    (schedule_reload s m).now = s.now := by
  unfold schedule_reload
  split <;> rfl

theorem schedule_reload_registry (s : LoaderState) (m : String) :
    (schedule_reload s m).registry = s.registry := by
  unfold schedule_reload
  split <;> rfl

theorem schedule_reload_sources (s : LoaderState) (m : String) :
    (schedule_reload s m).sources = s.sources := by
  unfold schedule_reload
  split <;> rfl

theorem schedule_reload_reloads (s : LoaderState) (m : String) :
    (schedule_reload s m).reloadsExecuted = s.reloadsExecuted := by
  unfold schedule_reload
  split <;> rfl

theorem foldl_schedule_processing (l : List String) (s : LoaderState) :
    (l.foldl schedule_reload s).processing_modules = s.processing_modules := by
  induction l generalizing s with
  | nil => rfl
  | cons a t ih => rw [List.foldl_cons, ih, schedule_reload_processing]

theorem foldl_schedule_last (l : List String) (s : LoaderState) :
    (l.foldl schedule_reload s).last_reload_time = s.last_reload_time := by
  induction l generalizing s with
  | nil => rfl
  | cons a t ih => rw [List.foldl_cons, ih, schedule_reload_last]

theorem foldl_schedule_registry (l : List String) (s : LoaderState) :
    (l.foldl schedule_reload s).registry = s.registry := by
  induction l generalizing s with
  | nil => rfl
  | cons a t ih => rw [List.foldl_cons, ih, schedule_reload_registry]

theorem foldl_schedule_sources (l : List String) (s : LoaderState) :
    (l.foldl schedule_reload s).sources = s.sources := by
  induction l generalizing s with
  | nil => rfl
  | cons a t ih => rw [List.foldl_cons, ih, schedule_reload_sources]

theorem foldl_schedule_reloads (l : List String) (s : LoaderState) :
    (l.foldl schedule_reload s).reloadsExecuted = s.reloadsExecuted := by
  induction l generalizing s with
  | nil => rfl
  | cons a t ih => rw [List.foldl_cons, ih, schedule_reload_reloads]

/-- Fields of the coordinator state after one dispatching iteration of the
consumer loop: the processing set is restored, the completion time is
recorded, the reload ran against the current source, and the trace grew by
the dispatched name — independent of which schedule calls arrived during
the worker-pool await. -/
theorem processOne_dispatch (dur : Nat) (arrivals : List String) (s : LoaderState)
    (m : String) (rest : List String) (hq : s.queue = m :: rest)
    (hp : m ∉ s.processing_modules) :
    (processOne dur arrivals s).processing_modules = s.processing_modules ∧
    (processOne dur arrivals s).last_reload_time
      = dset s.last_reload_time m (debounced_time s m + dur) ∧
    (processOne dur arrivals s).now = debounced_time s m + dur ∧
    (processOne dur arrivals s).registry
      = reload_module_sync s.registry m (s.sources m) ∧
    (processOne dur arrivals s).sources = s.sources ∧
    (processOne dur arrivals s).reloadsExecuted = s.reloadsExecuted ++ [m] := by
  obtain ⟨q, pr, lrt, tnow, reg, srcs, rx⟩ := s
  dsimp only at hq hp ⊢
  subst hq
  simp only [processOne, if_neg hp]
  refine ⟨?_, ?_, ?_, ?_, ?_, ?_⟩ <;>
    simp [foldl_schedule_processing, foldl_schedule_last, foldl_schedule_registry,
      foldl_schedule_sources, foldl_schedule_reloads, debounced_time]

/-- With no interleaved schedule calls, one dispatching iteration consumes
exactly the dequeued head. -/
theorem processOne_nil_queue (dur : Nat) (s : LoaderState)
    (m : String) (rest : List String) (hq : s.queue = m :: rest)
    (hp : m ∉ s.processing_modules) :
    (processOne dur [] s).queue = rest := by
  obtain ⟨q, pr, lrt, tnow, reg, srcs, rx⟩ := s
  dsimp only at hq hp ⊢
  subst hq
  simp only [processOne, if_neg hp]
  rfl

/-- Draining a queue with an empty processing set and no interleaved
schedule calls dispatches one reload per queued entry, in FIFO order. -/
theorem drain_trace (dur : Nat) : ∀ (q : List String) (s : LoaderState),
    s.queue = q → s.processing_modules = [] →
    (drainAll dur q.length s).reloadsExecuted = s.reloadsExecuted ++ q := by
  intro q
  induction q with
  | nil =>
    intro s _ _
    simp [drainAll]
  | cons m rest ih =>
    intro s hq hp
    have hp' : m ∉ s.processing_modules := by
      rw [hp]
      exact List.not_mem_nil m
    have hfields := processOne_dispatch dur [] s m rest hq hp'
    have hqueue := processOne_nil_queue dur s m rest hq hp'
    show (drainAll dur rest.length (processOne dur [] s)).reloadsExecuted = _
    rw [ih (processOne dur [] s) hqueue (by rw [hfields.1, hp]),
      hfields.2.2.2.2.2]
    simp

/-- C3, counterexample: after taking the snapshot `snap3` of a registry
where module `"u"` holds handler `"h1"`, a later `register_function` for
the same module becomes visible THROUGH the snapshot (`dict.copy()` is
shallow, so the per-module inner dict is shared): the snapshot showed no
`"h2"` at snapshot time but shows it after the mutation, contradicting the
claim that no subsequent register changes the snapshot's contents. -/
theorem c3_counterexample :
    snapshotGet snap3 r3a.heap "u" "h2" = none ∧
    snapshotGet snap3 r3b.heap "u" "h2" = some ⟨2, defaultMethods⟩ := by
  constructor
  · rfl
  · rfl

/-- C3 (amended): the snapshot returned by `get_all_functions_with_methods`
is a shallow copy.  A subsequent `clear_module_functions` never changes the
snapshot's contents (it only deletes the outer binding), but a subsequent
`register_function` for a unit present in the registry at the snapshot's
shared address mutates the shared per-unit table in place and is visible
through the snapshot. -/
theorem c3_snapshot_shallow :
    (∀ (snap : List (String × Nat)) (r : Registry) (m m' f' : String),
        snapshotGet snap (clear_module_functions r m).heap m' f'
          = snapshotGet snap r.heap m' f') ∧
    (∀ (r : Registry) (snap : List (String × Nat)) (m f : String) (v : Nat)
        (ms : Option Methods) (a : Nat),
        dget snap m = some a → dget r.outer m = some a →
        snapshotGet snap (register_function r m f v ms).heap m f
          = some ⟨v, ms.getD defaultMethods⟩) := by
  constructor
  · intro snap r m m' f'
    rfl
  · intro r snap m f v ms a hsnap houter
    rw [register_eq_of_some houter]
    unfold snapshotGet
    simp only [hsnap, dget_dset_self]

/-- C3, witness for the amended claim's second conjunct at a concrete
registry. -/
theorem c3_snapshot_shallow_witness :
    snapshotGet snap3 (register_function r3a "u" "h2" 2 none).heap "u" "h2"
      = some ⟨2, defaultMethods⟩ :=
  c3_snapshot_shallow.2 r3a snap3 "u" "h2" 2 none 0 rfl rfl

/-- C6: after `register_function` for (unit, handler), `get_function`
returns exactly the registered callable and `get_function_methods` exactly
the registered capability flags; the entry survives a registration of any
other (unit, handler) pair, is replaced by a re-registration of the same
pair (last write wins), and is gone after the unit is cleared. -/
theorem c6_register_get_contract (r : Registry) (hwf : WF r) (u h : String)
    (fn : Nat) (ms : Option Methods) :
    get_function (register_function r u h fn ms) u h = some fn ∧
    get_function_methods (register_function r u h fn ms) u h
      = some (ms.getD defaultMethods) ∧
    (∀ (u2 h2 : String) (fn2 : Nat) (ms2 : Option Methods), ¬(u2 = u ∧ h2 = h) →
        get_function (register_function (register_function r u h fn ms) u2 h2 fn2 ms2) u h
          = some fn) ∧
    (∀ (fn2 : Nat) (ms2 : Option Methods),
        get_function (register_function (register_function r u h fn ms) u h fn2 ms2) u h
          = some fn2) ∧
    get_function (clear_module_functions (register_function r u h fn ms) u) u h = none := by
  refine ⟨?_, ?_, ?_, ?_, ?_⟩
  · unfold get_function
    rw [lookupInfo_register_self]
  · unfold get_function_methods
    rw [lookupInfo_register_self]
  · intro u2 h2 fn2 ms2 hne
    unfold get_function
    rw [lookupInfo_register_frame _ (WF_register r hwf u h fn ms) u2 h2 fn2 ms2 u h hne,
      lookupInfo_register_self]
  · intro fn2 ms2
    unfold get_function
    rw [lookupInfo_register_self]
  · unfold get_function
    rw [lookupInfo_clear_self]

/-- C6, witness: the persistence conjunct applied at a concrete registry
(register `("u","h")`, then register the distinct pair `("u","k")`; the
first entry is still returned). -/
theorem c6_register_get_contract_witness :
    get_function (register_function (register_function emptyRegistry "u" "h" 1 none)
      "u" "k" 2 none) "u" "h" = some 1 :=
  (c6_register_get_contract emptyRegistry (by decide) "u" "h" 1 none).2.2.1
    "u" "k" 2 none (by decide)

/-- C7: a load failure of unit `A` (its source fails to evaluate during a
reload) leaves every other unit `B`'s registered handlers unchanged and
queryable, and the consumer loop is not terminated: with `A` at the head of
the queue and its source failing, draining the queue still dispatches one
reload per queued entry, `A`'s included, in order. -/
theorem c7_failure_isolated (r : Registry) (A B f : String) (hAB : A ≠ B) :
    get_function (reload_module_sync r A ⟨[], true⟩) B f = get_function r B f ∧
    get_function_methods (reload_module_sync r A ⟨[], true⟩) B f
      = get_function_methods r B f ∧
    (∀ (dur : Nat) (s : LoaderState) (rest : List String),
        s.queue = A :: rest → s.processing_modules = [] → (s.sources A).raises = true →
        (drainAll dur s.queue.length s).reloadsExecuted
          = s.reloadsExecuted ++ (A :: rest)) := by
  refine ⟨?_, ?_, ?_⟩
  · unfold reload_module_sync load_module_sync get_function
    dsimp only
    rw [List.foldl_nil, lookupInfo_clear_other r A B f (Ne.symm hAB)]
  · unfold reload_module_sync load_module_sync get_function_methods
    dsimp only
    rw [List.foldl_nil, lookupInfo_clear_other r A B f (Ne.symm hAB)]
  · intro dur s rest hq hp _
    rw [hq]
    have := drain_trace dur (A :: rest) s hq hp
    simpa [hq] using this

/-- C7, witness: a failing reload of module `"a"` leaves module `"b"`'s
handler `"g"` untouched, and the consumer loop still dispatches the queued
failing reload. -/
theorem c7_failure_isolated_witness :
    get_function (reload_module_sync rB "a" ⟨[], true⟩) "b" "g" = get_function rB "b" "g" ∧
    (drainAll 1 ({ s0 with queue := ["a"] } : LoaderState).queue.length
        { s0 with queue := ["a"] }).reloadsExecuted
      = ({ s0 with queue := ["a"] } : LoaderState).reloadsExecuted ++ ["a"] :=
  ⟨(c7_failure_isolated rB "a" "b" "g" (by decide)).1,
   (c7_failure_isolated rB "a" "b" "g" (by decide)).2.2 1
     { s0 with queue := ["a"] } [] rfl rfl rfl⟩

/-- C9: a (unit, handler) registered without explicitly declared
HTTP-method flags defaults to POST-only — both on the registry path
(`supported_methods=None`) and on the decorator path (`@api_function` with
its defaults `GET=False, POST=True`): `supports_method` answers true for
`"POST"` and false for `"GET"`. -/
theorem c9_default_post_only (r : Registry) (u h : String) (fn : Nat) :
    supports_method (register_function r u h fn none) u h "POST" = true ∧
    supports_method (register_function r u h fn none) u h "GET" = false ∧
    api_function r u h fn false true
      = Except.ok (register_function r u h fn (some [("GET", false), ("POST", true)])) ∧
    supports_method (register_function r u h fn (some [("GET", false), ("POST", true)])) u h "POST" = true ∧
    supports_method (register_function r u h fn (some [("GET", false), ("POST", true)])) u h "GET" = false := by
  have h1 : get_function_methods (register_function r u h fn none) u h
      = some defaultMethods := by
    unfold get_function_methods
    rw [lookupInfo_register_self]
    rfl
  have h2 : get_function_methods
      (register_function r u h fn (some [("GET", false), ("POST", true)])) u h
      = some [("GET", false), ("POST", true)] := by
    unfold get_function_methods
    rw [lookupInfo_register_self]
    rfl
  refine ⟨?_, ?_, rfl, ?_, ?_⟩ <;>
    simp [supports_method, h1, h2] <;> decide

/-- C10: `supports_method` is case-insensitive in the method name (it
uppercases before the lookup, and uppercasing is idempotent) and total: on
an unregistered (unit, handler) pair it returns false instead of failing. -/
theorem c10_supports_case_insensitive_total (r : Registry) (u f m : String) :
    supports_method r u f m = supports_method r u f (strToUpper m) ∧
    (get_function_methods r u f = none → supports_method r u f m = false) := by
  constructor
  · unfold supports_method
    cases hm : get_function_methods r u f
    · rfl
    · rw [strToUpper_idem]
  · intro hnone
    unfold supports_method
    rw [hnone]

/-- C10, witness: on the empty registry (nothing registered) the lookup
with a lowercase method name totals to false. -/
theorem c10_supports_case_insensitive_total_witness :
    supports_method emptyRegistry "u" "f" "get" = false :=
  (c10_supports_case_insensitive_total emptyRegistry "u" "f" "get").2 rfl

theorem foldl_schedule_mem (l : List String) (st : LoaderState)
    (h : ∀ a ∈ l, a ∈ st.processing_modules) : l.foldl schedule_reload st = st := by
  induction l with
  | nil => rfl
  | cons a t ih =>
    rw [List.foldl_cons]
    have ha : schedule_reload st a = st := by
      unfold schedule_reload
      rw [if_pos (h a (List.mem_cons_self a t))]
    rw [ha]
    exact ih (fun b hb => h b (List.mem_cons_of_mem a hb))

/-- C1, counterexample: two change events for unit `"m"` delivered at the
same instant (a window of width 0, shorter than the debounce interval) and
both scheduled before the consumer loop dequeues anything result in TWO
executed reloads of `"m"`, not exactly one: the consumer delays each
dequeued duplicate by the debounce interval but never coalesces duplicates
that are already in the queue. -/
theorem c1_counterexample :
    (drainAll 1 2 sBurst).reloadsExecuted = ["m", "m"] := by
  rfl

/-- C1 (amended): the consumer loop dispatches exactly one reload per
enqueued event — a burst of N change events for the same unit, all
scheduled before processing begins, yields N reloads rather than one —
while a `schedule_reload` issued for a unit currently in the processing set
is dropped and contributes no reload. -/
theorem c1_reload_per_enqueued_event (dur : Nat) (s : LoaderState)
    (hp : s.processing_modules = []) :
    ((drainAll dur s.queue.length s).reloadsExecuted
        = s.reloadsExecuted ++ s.queue) ∧
    (∀ (s2 : LoaderState) (m : String), m ∈ s2.processing_modules →
        schedule_reload s2 m = s2) := by
  constructor
  · exact drain_trace dur s.queue s rfl hp
  · intro s2 m hm
    unfold schedule_reload
    rw [if_pos hm]

/-- C1, witness: the per-event dispatch law evaluated on the concrete
two-event burst, and the drop law on a state with `"m"` in flight. -/
theorem c1_reload_per_enqueued_event_witness :
    (drainAll 1 sBurst.queue.length sBurst).reloadsExecuted
      = sBurst.reloadsExecuted ++ sBurst.queue ∧
    schedule_reload { s0 with processing_modules := ["m"] } "m"
      = { s0 with processing_modules := ["m"] } :=
  ⟨(c1_reload_per_enqueued_event 1 sBurst rfl).1,
   (c1_reload_per_enqueued_event 1 sBurst rfl).2
     { s0 with processing_modules := ["m"] } "m" (List.mem_cons_self "m" [])⟩

/-- C4, counterexample: with a reload of `"m"` in flight, two
`schedule_reload "m"` calls arriving during the worker-pool await are BOTH
dropped (the name is in the processing set), so zero additional reloads
execute afterwards — the trace stays at the single in-flight execution,
not at two total as "exactly one additional" would require. -/
theorem c4_counterexample :
    (drainAll 1 5 (processOne 1 ["m", "m"] (schedule_reload s0 "m"))).reloadsExecuted
      = ["m"] := by
  rfl

/-- C4 (amended): two `schedule_reload` calls for a unit issued while that
unit's reload is in flight are both dropped and have no effect at all on
the coordinator state: the iteration ends exactly as it would have with no
calls, so zero additional reloads of the unit execute afterwards. -/
theorem c4_inflight_schedules_dropped (dur : Nat) (s : LoaderState) (m : String)
    (rest : List String) (hq : s.queue = m :: rest) (hp : m ∉ s.processing_modules) :
    processOne dur [m, m] s = processOne dur [] s := by
  obtain ⟨q, pr, lrt, tnow, reg, srcs, rx⟩ := s
  dsimp only at hq hp
  subst hq
  simp only [processOne, if_neg hp]
  rw [foldl_schedule_mem [m, m] _ ?_]
  · rfl
  · intro a ha
    simp only [List.mem_cons, List.mem_singleton] at ha
    have : a = m := by
      rcases ha with ha | ha
      · exact ha
      · simpa using ha
    subst this
    exact List.mem_cons_self _ _

/-- C4, witness: the drop law evaluated on the concrete in-flight state. -/
theorem c4_inflight_schedules_dropped_witness :
    processOne 1 ["m", "m"] (schedule_reload s0 "m")
      = processOne 1 [] (schedule_reload s0 "m") :=
  c4_inflight_schedules_dropped 1 (schedule_reload s0 "m") "m" [] rfl
    (List.not_mem_nil "m")

/-- C5: whenever the consumer loop dispatches a reload of a unit, the
iteration ends with the unit's name out of the processing set and its
last-reload timestamp set to the completion time, irrespective of the
unit's current source (a source with `raises = true` is the load-failure
case — `_reload_module_sync` catches every exception, so the `finally`
discard and the timestamp write both run). -/
theorem c5_completion_cleanup (dur : Nat) (arrivals : List String) (s : LoaderState)
    (m : String) (rest : List String) (hq : s.queue = m :: rest)
    (hp : m ∉ s.processing_modules) :
    m ∉ (processOne dur arrivals s).processing_modules ∧
    dget (processOne dur arrivals s).last_reload_time m
      = some ((processOne dur arrivals s).now) ∧
    (processOne dur arrivals s).reloadsExecuted = s.reloadsExecuted ++ [m] := by
  have hfields := processOne_dispatch dur arrivals s m rest hq hp
  refine ⟨?_, ?_, hfields.2.2.2.2.2⟩
  · rw [hfields.1]
    exact hp
  · rw [hfields.2.1, hfields.2.2.1]
    exact dget_dset_self _ _ _

/-- C5, witness: evaluated on a unit whose source currently fails to be
imported (the failure case of the reload). -/
theorem c5_completion_cleanup_witness :
    "m" ∉ (processOne 1 [] sFail).processing_modules ∧
    dget (processOne 1 [] sFail).last_reload_time "m"
      = some ((processOne 1 [] sFail).now) ∧
    (processOne 1 [] sFail).reloadsExecuted = sFail.reloadsExecuted ++ ["m"] :=
  c5_completion_cleanup 1 [] sFail "m" [] rfl (List.not_mem_nil "m")

/-- C8: `on_modified` and `on_deleted` route their work through
`_schedule_async_task`, which never raises into the notification thread
(when the loop is unavailable it logs a warning and drops the task), but
`on_created` calls `asyncio.create_task` directly, which raises
`RuntimeError` into the watchdog thread — where no event loop is running —
for a created `.py` file in the API modules directory.  The first conjunct
evaluates the code at that failing input; the remaining conjuncts show the
other callbacks (and `on_created` on the scheduler's own thread) never
raise. -/
theorem c8_on_created_bypasses_bridge :
    raisesInto (on_created false
      { is_directory := false, src_path_ends_py := true, name := "m.py",
        parent_name := "apis", stem := "m" }) = true ∧
    (∀ (loopSet loopClosed submitRaises : Bool) (e : FileEvent),
        raisesInto (on_modified loopSet loopClosed submitRaises e) = false) ∧
    (∀ (loopSet loopClosed submitRaises : Bool) (e : FileEvent),
        raisesInto (on_deleted loopSet loopClosed submitRaises e) = false) ∧
    (∀ (e : FileEvent), raisesInto (on_created true e) = false) := by
  refine ⟨rfl, ?_, ?_, ?_⟩
  · intro ls lc sr e
    unfold on_modified schedule_async_task
    split_ifs <;> rfl
  · intro ls lc sr e
    unfold on_deleted schedule_async_task
    split_ifs <;> rfl
  · intro e
    unfold on_created asyncio_create_task
    split_ifs <;> first | rfl | simp_all

end ApiDeploy
